import Mathlib

/-!
# Verification of airops command-string construction

Shallow embedding of `src/airops/docker.py` and `src/airops/vcs.py`.

The library assembles shell command strings (`docker run`, `docker build`,
`docker login`, `git clone`): it builds an argument list, quotes every token
with Python's `shlex.quote`, joins the quoted tokens with single spaces, and
optionally prepends a `docker login` command joined by " && ".

We embed:
* `quoteL` / `shlexQuote` — Python's `shlex.quote` (CPython `shlex` module):
  the empty string becomes `''`; a nonempty string of characters matching
  `[a-zA-Z0-9_@%+=:,/.-]` (with `re.ASCII`) is returned unchanged; any other
  string is wrapped in single quotes with each inner single quote replaced by
  the five characters `'"'"'`.
* `lexAll` / `lexWords` — a model of how a POSIX shell reads a command line
  into literal words.  Words are separated by single spaces; single-quoted
  spans are literal up to the closing quote; inside double quotes every
  character is literal except `"`, and `$`, backslash and backquote are
  rejected (they would trigger expansion or escaping); outside quotes a
  backslash makes the next character literal, and any character that the
  shell treats specially (whitespace, `;`, `|`, `&`, `<`, `>`, parentheses,
  `$`, backquote, glob characters, `#`, `~`) is rejected, so a successful
  parse yields exactly the literal words.
* the flag builders `DockerRunFlag.*`, `DockerBuildFlag.*`, `GitCloneFlag.*`
  and the `Docker` / `Git` components with their `run`, `build` and `clone`
  operations, including Python-level failure behaviour (`TypeError` when
  unpacking a `None` flags argument, `AttributeError` when `Git._ssh` reads
  the never-assigned `ssh_conn_id`).
-/

/-- Quoting mode of the shell reader: outside quotes, inside single quotes,
or inside double quotes. -/
inductive QMode
| norm
| single
| double

/-- Characters that a POSIX shell treats specially outside quotes (beyond the
quote characters and backslash, which the reader handles directly): default
field separators, control operators, redirections, expansion introducers
(`$` and backquote), glob characters, comment and tilde. -/
def specialChar (c : Char) : Bool :=
  c == ' ' || c == '\t' || c == '\n' || c == ';' || c == '|' || c == '&' ||
  c == '<' || c == '>' || c == '(' || c == ')' || c == '$' ||
  c == Char.ofNat 96 || c == '*' || c == '?' || c == '[' || c == '#' ||
  c == '~'

/-- Prepends a character to the word currently being read. -/
def consWord (c : Char) (p : List Char × List (List Char)) :
    List Char × List (List Char) :=
  (c :: p.1, p.2)

/-- Reads the rest of a command line in the given quoting mode.  Returns the
remainder of the current word together with the following complete words, or
`none` when the input contains an unterminated quote, a trailing backslash, a
line continuation, or a character the shell would not take literally. -/
def lexAll : QMode → List Char → Option (List Char × List (List Char))
  | .norm, [] => some ([], [])
  | .norm, c :: rest =>
    if c = ' ' then Option.map (fun p => ([], p.1 :: p.2)) (lexAll .norm rest)
    else if c = '\'' then lexAll .single rest
    else if c = '"' then lexAll .double rest
    else if c = '\\' then
      match rest with
      | [] => none
      | d :: rest' =>
        if d = '\n' then none
        else Option.map (consWord d) (lexAll .norm rest')
    else if specialChar c then none
    else Option.map (consWord c) (lexAll .norm rest)
  | .single, [] => none
  | .single, c :: rest =>
    if c = '\'' then lexAll .norm rest
    else Option.map (consWord c) (lexAll .single rest)
  | .double, [] => none
  | .double, c :: rest =>
    if c = '"' then lexAll .norm rest
    else if c = '$' ∨ c = Char.ofNat 96 ∨ c = '\\' then none
    else Option.map (consWord c) (lexAll .double rest)

/-- Splits a whole command line into the literal words a POSIX shell would
read, or `none` when some character would not be taken literally. -/
def lexWords (cs : List Char) : Option (List (List Char)) :=
  Option.map (fun p => p.1 :: p.2) (lexAll .norm cs)

/-- CPython `shlex.quote` leaves a character unquoted iff it matches
`[a-zA-Z0-9_@%+=:,/.-]` under `re.ASCII` (`_find_unsafe` finds nothing). -/
def isSafeChar (c : Char) : Bool :=
  c.isAlphanum || c == '_' || c == '@' || c == '%' || c == '+' || c == '=' ||
  c == ':' || c == ',' || c == '.' || c == '/' || c == '-'

/-- CPython `shlex.quote`'s replacement of every single quote by the five
characters `'"'"'` (`s.replace("'", "'\"'\"'")`). -/
def escSingle : List Char → List Char
  | [] => []
  | c :: rest =>
    if c = '\'' then '\'' :: '"' :: '\'' :: '"' :: '\'' :: escSingle rest
    else c :: escSingle rest

/-- CPython `shlex.quote` on a list of characters: `''` for the empty string,
the string itself when every character is safe, otherwise the string wrapped
in single quotes with inner single quotes escaped. -/
def quoteL (s : List Char) : List Char :=
  if s = [] then ['\'', '\'']
  else if s.all isSafeChar then s
  else '\'' :: (escSingle s ++ ['\''])

/-- `shlex.quote` on strings. -/
def shlexQuote (s : String) : String := ⟨quoteL s.data⟩

/-- Python's `" ".join(...)`. -/
def joinSpace : List String → String
  | [] => ""
  | [s] => s
  | s :: ss => s ++ " " ++ joinSpace ss

/-- `" ".join` at the character-list level. -/
def joinL : List (List Char) → List Char
  | [] => []
  | [w] => w
  | w :: ws => w ++ ' ' :: joinL ws

example : shlexQuote "" = "''" := by decide
example : shlexQuote "my_image" = "my_image" := by decide
example : shlexQuote "a b" = "'a b'" := by decide
example : shlexQuote "a'b" = "'a'\"'\"'b'" := by decide
example : lexWords ("'a b' c").data = some ['a' :: ' ' :: 'b' :: [], ['c']] := by decide
example : lexWords ("$x").data = none := by decide

/-! ## Flag builders (`DockerRunFlag`, `DockerBuildFlag`, `GitCloneFlag`)

A Python `Dict[str, str]` is embedded as an association list, preserving the
dict's insertion-ordered iteration.  The loops
`arg = []; for k, v in m.items(): arg += [flag, rendered]` are left folds. -/

/-- `DockerRunFlag.detach`: `["-d"]`. -/
def DockerRunFlag.detach : List String := ["-d"]

/-- `DockerRunFlag.interactive`: `["-i"]`. -/
def DockerRunFlag.interactive : List String := ["-i"]

/-- `DockerRunFlag.tty`: `["-t"]`. -/
def DockerRunFlag.tty : List String := ["-t"]

/-- `DockerRunFlag.temp_container`: `["--rm"]`. -/
def DockerRunFlag.temp_container : List String := ["--rm"]

/-- `DockerRunFlag.name`: `["--name", name]`. -/
def DockerRunFlag.name (n : String) : List String := ["--name", n]

/-- `DockerRunFlag.publish`: one `["-p", h ++ ":" ++ c]` pair per entry. -/
def DockerRunFlag.publish (ports : List (String × String)) : List String :=
  ports.foldl (fun arg p => arg ++ ["-p", p.1 ++ ":" ++ p.2]) []

/-- `DockerRunFlag.env`: one `["-e", k ++ "=" ++ v]` pair per entry. -/
def DockerRunFlag.env (envs : List (String × String)) : List String :=
  envs.foldl (fun arg p => arg ++ ["-e", p.1 ++ "=" ++ p.2]) []

/-- `DockerRunFlag.volume`: one `["-v", h ++ ":" ++ c]` pair per entry. -/
def DockerRunFlag.volume (vols : List (String × String)) : List String :=
  vols.foldl (fun arg p => arg ++ ["-v", p.1 ++ ":" ++ p.2]) []

/-- `DockerBuildFlag.build_arg`: one `["--build-arg", k ++ "=" ++ v]` pair per
entry. -/
def DockerBuildFlag.build_arg (envs : List (String × String)) : List String :=
  envs.foldl (fun arg p => arg ++ ["--build-arg", p.1 ++ "=" ++ p.2]) []

/-- `DockerBuildFlag.file`: `["-f", f]`. -/
def DockerBuildFlag.file (f : String) : List String := ["-f", f]

/-- `DockerBuildFlag.no_cache`: `["--no-cache"]`. -/
def DockerBuildFlag.no_cache : List String := ["--no-cache"]

/-- `DockerBuildFlag.target`: `["--target", t]`. -/
def DockerBuildFlag.target (t : String) : List String := ["--target", t]

/-- `DockerBuildFlag.pull`: `["--pull"]`. -/
def DockerBuildFlag.pull : List String := ["--pull"]

/-- `DockerBuildFlag.platform`: `["--platform", p]`. -/
def DockerBuildFlag.platform (p : String) : List String := ["--platform", p]

/-- `GitCloneFlag.verbose`: `["--verbose"]`. -/
def GitCloneFlag.verbose : List String := ["--verbose"]

/-- `GitCloneFlag.branch`: `["--branch", name]`. -/
def GitCloneFlag.branch (n : String) : List String := ["--branch", n]

/-! ## The `Docker` and `Git` components -/

/-- Python runtime errors the embedded code can raise: `TypeError` from
unpacking `None` with `*flags`, `AttributeError` from reading a
never-assigned attribute. -/
inductive PyErr
| typeError
| attributeError
deriving DecidableEq

/-- The Airflow `SSHOperator` constructed by `_ssh`: we record the connection
id and the command string handed to it. -/
structure SSHOperator where
  ssh_conn_id : String
  command : String
deriving DecidableEq

/-- The `Docker` component's state, as stored by `Docker.__init__`:
`ssh_conn_id`, `_username`, `_password`.  A Python `str` argument defaulting
to `None` is an `Option String`. -/
structure Docker where
  ssh_conn_id : String
  username : Option String
  password : Option String

/-- `Docker._login_command`: when `self._username and self._password` is
truthy (both non-`None` and nonempty), join the individually quoted tokens
`["docker", "login", "-u", username, "-p", password]`; otherwise `None`. -/
def Docker.loginCommand (d : Docker) : Option String :=
  match d.username, d.password with
  | some u, some p =>
    if u ≠ "" ∧ p ≠ "" then
      some (joinSpace ((["docker", "login", "-u", u, "-p", p]).map shlexQuote))
    else none
  | _, _ => none

/-- The `command` local of `Docker.run` before the login prefix:
`args = ["docker", "run", *docker_flags, image_name, *app_args]` (with
`app_args = app_args or list()`), each token `shlex.quote`d, space-joined. -/
def Docker.assembleRun (docker_flags : List String) (image_name : String)
    (app_args : Option (List String)) : String :=
  let args := ["docker", "run"] ++ docker_flags ++ [image_name] ++ app_args.getD []
  joinSpace (args.map shlexQuote)

/-- The `command` local of `Docker.build`:
`args = ["docker", "build", *docker_flags, "-t", image_name, project_path]`,
each token `shlex.quote`d, space-joined. -/
def Docker.assembleBuild (image_name : String) (docker_flags : List String)
    (project_path : String) : String :=
  let args := ["docker", "build"] ++ docker_flags ++ ["-t", image_name, project_path]
  joinSpace (args.map shlexQuote)

/-- `Docker.run`: assemble the command, prepend `login_command + " && "` when
`_login_command()` returned one, then either return the string
(`return_command=True`, `Sum.inl`) or hand it to `_ssh` (`Sum.inr`). -/
def Docker.run (d : Docker) (docker_flags : List String) (image_name : String)
    (app_args : Option (List String)) (return_command : Bool) :
    Sum String SSHOperator :=
  let command := Docker.assembleRun docker_flags image_name app_args
  let command :=
    match d.loginCommand with
    | some lc => lc ++ " && " ++ command
    | none => command
  if return_command then Sum.inl command
  else Sum.inr ⟨d.ssh_conn_id, command⟩

/-- `Docker.build`: assemble the command, prepend the login command when
present, then return the string or hand it to `_ssh`. -/
def Docker.build (d : Docker) (image_name : String) (docker_flags : List String)
    (project_path : String) (return_command : Bool) :
    Sum String SSHOperator :=
  let command := Docker.assembleBuild image_name docker_flags project_path
  let command :=
    match d.loginCommand with
    | some lc => lc ++ " && " ++ command
    | none => command
  if return_command then Sum.inl command
  else Sum.inr ⟨d.ssh_conn_id, command⟩

/-- The `Git` component: `Git.__init__` takes no arguments and stores
nothing. -/
structure Git

/-- Reading `self.ssh_conn_id` on a `Git` instance: `Git.__init__` never
assigns it, so the attribute is always absent. -/
def Git.sshConnId (_ : Git) : Option String := none

/-- The `command` local of `Git.clone`:
`args = ["git", "clone", *flags, repository_url, directory]`, each token
`shlex.quote`d, space-joined. -/
def Git.assembleClone (flags : List String) (repository_url : String)
    (directory : String) : String :=
  let args := ["git", "clone"] ++ flags ++ [repository_url, directory]
  joinSpace (args.map shlexQuote)

/-- `Git.clone(repository_url, directory=".", flags=None, return_command=False)`:
unpacking `*flags` raises `TypeError` when `flags` is `None` (the default);
otherwise assemble the command and either return it (`return_command=True`)
or call `self._ssh`, which reads the never-assigned `self.ssh_conn_id` and so
raises `AttributeError`. -/
def Git.clone (g : Git) (repository_url : String) (directory : String)
    (flags : Option (List String)) (return_command : Bool) :
    Except PyErr (Sum String SSHOperator) :=
  match flags with
  | none => Except.error PyErr.typeError
  | some fs =>
    let command := Git.assembleClone fs repository_url directory
    if return_command then Except.ok (Sum.inl command)
    else
      match g.sshConnId with
      | none => Except.error PyErr.attributeError
      | some cid => Except.ok (Sum.inr ⟨cid, command⟩)

example :
    (Docker.mk "c" none none).run
      (DockerRunFlag.temp_container ++ DockerRunFlag.name "x") "img" none true
      = Sum.inl "docker run --rm --name x img" := by decide

example :
    (Docker.mk "c" none none).build "my_image"
      (DockerBuildFlag.build_arg [("arg1", "value1")]) "." true
      = Sum.inl "docker build --build-arg arg1=value1 -t my_image ." := by decide

example :
    Git.mk.clone "https://example/repo.git" "." (some []) true
      = Except.ok (Sum.inl "git clone https://example/repo.git .") := rfl

example :
    (Docker.mk "c" (some "myuser") (some "mypassword")).run [] "img" none true
      = Sum.inl "docker login -u myuser -p mypassword && docker run img" := by
  decide

/-! ## Round-trip of `shlex.quote` through the shell reader -/

/-- No shell-special character is safe for `shlex.quote`. -/
theorem not_safe_of_special (c : Char) (h : specialChar c = true) :
    isSafeChar c = false := by
  simp only [specialChar, Bool.or_eq_true, beq_iff_eq] at h
  repeat' rcases h with h | h
  all_goals decide

/-- A `shlex.quote`-safe character is not a separator, quote, backslash or
shell-special character, so the shell reads it literally. -/
theorem safe_char_facts (c : Char) (h : isSafeChar c = true) :
    c ≠ ' ' ∧ c ≠ '\'' ∧ c ≠ '"' ∧ c ≠ '\\' ∧ specialChar c = false := by
  refine ⟨?_, ?_, ?_, ?_, ?_⟩
  · rintro rfl; exact absurd h (by decide)
  · rintro rfl; exact absurd h (by decide)
  · rintro rfl; exact absurd h (by decide)
  · rintro rfl; exact absurd h (by decide)
  · cases hs : specialChar c with
    | false => rfl
    | true => rw [not_safe_of_special c hs] at h; exact absurd h (by simp)

/-- Closing single quote: back to normal mode. -/
theorem lexAll_single_close (l : List Char) :
    lexAll .single ('\'' :: l) = lexAll .norm l := rfl

/-- Opening double quote in normal mode. -/
theorem lexAll_norm_openDouble (l : List Char) :
    lexAll .norm ('"' :: l) = lexAll .double l := by
  conv_lhs => rw [lexAll.eq_def]
  simp only [if_neg (by decide : ¬('"' : Char) = ' '),
    if_neg (by decide : ¬('"' : Char) = '\''), if_pos rfl, if_true]

/-- Opening single quote in normal mode. -/
theorem lexAll_norm_openSingle (l : List Char) :
    lexAll .norm ('\'' :: l) = lexAll .single l := by
  conv_lhs => rw [lexAll.eq_def]
  simp only [if_neg (by decide : ¬('\'' : Char) = ' '), if_pos rfl, if_true]

/-- A single quote inside double quotes is literal. -/
theorem lexAll_double_quote (l : List Char) : lexAll .double ('\'' :: l)
    = Option.map (consWord '\'') (lexAll .double l) := rfl

/-- Closing double quote: back to normal mode. -/
theorem lexAll_double_close (l : List Char) :
    lexAll .double ('"' :: l) = lexAll .norm l := rfl

/-- An unquoted space ends the current word. -/
theorem lexAll_norm_space (l : List Char) : lexAll .norm (' ' :: l)
    = Option.map (fun p => ([], p.1 :: p.2)) (lexAll .norm l) := by
  conv_lhs => rw [lexAll.eq_def]
  simp only [if_pos rfl, if_true]

/-- End of input in normal mode: the current word ends. -/
theorem lexAll_norm_nil : lexAll .norm [] = some ([], []) := rfl

/-- An ordinary character in normal mode is read literally. -/
theorem lexAll_norm_char (c : Char) (l : List Char) (h1 : c ≠ ' ')
    (h2 : c ≠ '\'') (h3 : c ≠ '"') (h4 : c ≠ '\\')
    (h5 : specialChar c = false) :
    lexAll .norm (c :: l) = Option.map (consWord c) (lexAll .norm l) := by
  conv_lhs => rw [lexAll.eq_def]
  simp only [if_neg h1, if_neg h2, if_neg h3, if_neg h4, h5,
    Bool.false_eq_true, if_false]

/-- Inside single quotes every character other than the closing quote is
literal. -/
theorem lexAll_single_char (c : Char) (l : List Char) (h : c ≠ '\'') :
    lexAll .single (c :: l) = Option.map (consWord c) (lexAll .single l) := by
  conv_lhs => rw [lexAll.eq_def]
  simp only [if_neg h]

/-- Reading a run of safe characters just conses them onto the current
word. -/
theorem lexAll_norm_safe (t : List Char) (rest : List Char)
    (h : t.all isSafeChar = true) :
    lexAll .norm (t ++ rest)
      = Option.map (fun p => (t ++ p.1, p.2)) (lexAll .norm rest) := by
  induction t with
  | nil => cases hr : lexAll .norm rest <;> simp [hr]
  | cons c t ih =>
    simp only [List.all_cons, Bool.and_eq_true] at h
    obtain ⟨hc, ht⟩ := h
    obtain ⟨h1, h2, h3, h4, h5⟩ := safe_char_facts c hc
    rw [List.cons_append, lexAll_norm_char c _ h1 h2 h3 h4 h5, ih ht]
    cases hr : lexAll .norm rest <;> simp [hr, consWord]

/-- Reading the single-quote escaped form of `t` followed by a closing quote
yields `t` spliced onto whatever the shell reads next. -/
theorem lexAll_single_esc (t : List Char) (rest : List Char) :
    lexAll .single (escSingle t ++ '\'' :: rest)
      = Option.map (fun p => (t ++ p.1, p.2)) (lexAll .norm rest) := by
  induction t with
  | nil =>
    rw [show escSingle [] ++ '\'' :: rest = '\'' :: rest from rfl,
      lexAll_single_close]
    cases hr : lexAll .norm rest <;> simp [hr]
  | cons c t ih =>
    by_cases hc : c = '\''
    · subst hc
      rw [show escSingle ('\'' :: t) ++ '\'' :: rest
            = '\'' :: '"' :: '\'' :: '"' :: '\''
                :: (escSingle t ++ '\'' :: rest) from by
          simp [escSingle],
        lexAll_single_close, lexAll_norm_openDouble, lexAll_double_quote,
        lexAll_double_close, lexAll_norm_openSingle, ih]
      cases hr : lexAll .norm rest <;> simp [hr, consWord]
    · rw [show escSingle (c :: t) ++ '\'' :: rest
            = c :: (escSingle t ++ '\'' :: rest) from by simp [escSingle, hc],
        lexAll_single_char c _ hc, ih]
      cases hr : lexAll .norm rest <;> simp [hr, consWord]

/-- Reading the `shlex.quote`d form of `t` yields `t` spliced onto whatever
the shell reads next. -/
theorem lexAll_norm_quote (t rest : List Char) :
    lexAll .norm (quoteL t ++ rest)
      = Option.map (fun p => (t ++ p.1, p.2)) (lexAll .norm rest) := by
  by_cases h0 : t = []
  · subst h0
    rw [show quoteL [] ++ rest = '\'' :: '\'' :: rest from rfl,
      lexAll_norm_openSingle, lexAll_single_close]
    cases hr : lexAll .norm rest <;> simp [hr]
  · by_cases h1 : t.all isSafeChar
    · rw [quoteL, if_neg h0, if_pos h1]
      exact lexAll_norm_safe t rest h1
    · rw [quoteL, if_neg h0, if_neg h1]
      rw [show ('\'' :: (escSingle t ++ ['\''])) ++ rest
            = '\'' :: (escSingle t ++ '\'' :: rest) from by simp,
        lexAll_norm_openSingle]
      exact lexAll_single_esc t rest

/-- Reading a whole line of space-separated `shlex.quote`d tokens recovers
exactly the original tokens. -/
theorem lexAll_joinL_quote (t : List Char) (ts : List (List Char)) :
    lexAll .norm (joinL ((t :: ts).map quoteL)) = some (t, ts) := by
  induction ts generalizing t with
  | nil =>
    have h := lexAll_norm_quote t []
    rw [List.append_nil] at h
    rw [show joinL ((t :: ([] : List (List Char))).map quoteL)
          = quoteL t from rfl, h, lexAll_norm_nil]
    simp
  | cons t' ts ih =>
    have hih := ih t'
    simp only [List.map_cons] at hih
    rw [show joinL ((t :: t' :: ts).map quoteL)
          = quoteL t ++ (' ' :: joinL (quoteL t' :: List.map quoteL ts))
        from rfl,
      lexAll_norm_quote, lexAll_norm_space, hih]
    simp

/-- Single-token round trip, word level: the quoted token reads back as one
word equal to the original token. -/
theorem lexWords_quoteL (t : List Char) : lexWords (quoteL t) = some [t] := by
  have h := lexAll_joinL_quote t []
  simp only [List.map_cons, List.map_nil, joinL] at h
  simp [lexWords, h]

/-- Multi-token round trip at the word level. -/
theorem lexWords_joinL_quote (t : List Char) (ts : List (List Char)) :
    lexWords (joinL ((t :: ts).map quoteL)) = some (t :: ts) := by
  unfold lexWords
  rw [lexAll_joinL_quote]
  rfl

/-- `String.append` concatenates the underlying character lists. -/
theorem stringData_append (a b : String) : (a ++ b).data = a.data ++ b.data := by
  cases a; cases b; rfl

/-- `joinSpace` agrees with `joinL` on the underlying character lists. -/
theorem joinSpace_data (ss : List String) :
    (joinSpace ss).data = joinL (ss.map String.data) := by
  induction ss with
  | nil => rfl
  | cons s ss ih =>
    cases ss with
    | nil => rfl
    | cons s' ss' =>
      show (s ++ " " ++ joinSpace (s' :: ss')).data
          = s.data ++ ' ' :: joinL ((s' :: ss').map String.data)
      rw [stringData_append, stringData_append, ih]
      simp

/-- Reading a space-join of `shlex.quote`d string tokens recovers exactly the
original tokens. -/
theorem lexWords_joinSpace_quote (a : String) (args : List String) :
    lexWords (joinSpace ((a :: args).map shlexQuote)).data
      = some ((a :: args).map String.data) := by
  rw [joinSpace_data, List.map_map]
  have hcomp : List.map (String.data ∘ shlexQuote) (a :: args)
      = List.map quoteL (List.map String.data (a :: args)) := by
    rw [List.map_map]; rfl
  rw [hcomp]
  simp only [List.map_cons]
  have h := lexWords_joinL_quote a.data (List.map String.data args)
  simpa using h

/-! ## Builder helper lemmas -/

/-- A Python `arg = []; for x in l: arg += f(x)` loop is `l.flatMap f`. -/
theorem foldl_append_eq_bind {α β : Type} (f : α → List β) :
    ∀ (l : List α) (acc : List β),
      l.foldl (fun a x => a ++ f x) acc = acc ++ l.flatMap f := by
  intro l
  induction l with
  | nil => intro acc; simp
  | cons x l ih => intro acc; simp [ih, List.flatMap_cons, List.append_assoc]

/-- Binding an entry-to-pair function doubles the length. -/
theorem length_bind_pairs {α β : Type} (f : α → List β)
    (hf : ∀ a, (f a).length = 2) :
    ∀ l : List α, (l.flatMap f).length = 2 * l.length := by
  intro l
  induction l with
  | nil => simp
  | cons x l ih =>
    simp only [List.flatMap_cons, List.length_append, hf, ih, List.length_cons]
    omega

/-! ## Claim theorems -/

/-- C1: shell-quoting is total and round-trip safe: for every string
(metacharacters included), quoting it and having a POSIX shell read the
quoted result yields exactly one word equal to the original string, and the
empty string quotes to `''`. -/
theorem quote_roundtrip_one_word :
    (∀ s : String, lexWords (shlexQuote s).data = some [s.data])
    ∧ shlexQuote "" = "''" := by
  constructor
  · intro s
    exact lexWords_quoteL s.data
  · decide

/-- C2: every token reaching the final command string of `Docker.run`,
`Docker.build` or `Git.clone` is shell-escaped exactly once: reading the
assembled command back with the shell reader recovers exactly the original
tokens (so no token is raw and none is escaped twice), the same holds for
the login command's tokens, and a map entry is first rendered into a single
composite `key=value` token before that one token is escaped. -/
theorem tokens_escaped_exactly_once :
    (∀ (docker_flags : List String) (image_name : String)
        (app_args : Option (List String)),
        lexWords (Docker.assembleRun docker_flags image_name app_args).data
          = some ((["docker", "run"] ++ docker_flags ++ [image_name]
              ++ app_args.getD []).map String.data))
    ∧ (∀ (image_name : String) (docker_flags : List String)
        (project_path : String),
        lexWords (Docker.assembleBuild image_name docker_flags
            project_path).data
          = some ((["docker", "build"] ++ docker_flags
              ++ ["-t", image_name, project_path]).map String.data))
    ∧ (∀ (flags : List String) (repository_url directory : String),
        lexWords (Git.assembleClone flags repository_url directory).data
          = some ((["git", "clone"] ++ flags
              ++ [repository_url, directory]).map String.data))
    ∧ (∀ u p : String,
        lexWords (joinSpace ((["docker", "login", "-u", u, "-p", p]).map
            shlexQuote)).data
          = some (["docker", "login", "-u", u, "-p", p].map String.data))
    ∧ (∀ m : List (String × String),
        DockerRunFlag.env m = m.flatMap (fun kv => ["-e", kv.1 ++ "=" ++ kv.2])
        ∧ DockerBuildFlag.build_arg m
            = m.flatMap (fun kv => ["--build-arg", kv.1 ++ "=" ++ kv.2])) := by
  refine ⟨?_, ?_, ?_, ?_, ?_⟩
  · intro fs img aas
    simpa [Docker.assembleRun] using lexWords_joinSpace_quote "docker"
      ("run" :: (fs ++ [img] ++ aas.getD []))
  · intro img fs path
    simpa [Docker.assembleBuild] using lexWords_joinSpace_quote "docker"
      ("build" :: (fs ++ ["-t", img, path]))
  · intro fs url dir
    simpa [Git.assembleClone] using lexWords_joinSpace_quote "git"
      ("clone" :: (fs ++ [url, dir]))
  · intro u p
    simpa using lexWords_joinSpace_quote "docker" ["login", "-u", u, "-p", p]
  · intro m
    constructor
    · rw [DockerRunFlag.env, foldl_append_eq_bind, List.nil_append]
    · rw [DockerBuildFlag.build_arg, foldl_append_eq_bind, List.nil_append]

/-- C3: when username and password are both set (nonempty), `Docker.run` and
`Docker.build` with `return_command = true` return the individually quoted
login command, then " && ", then the assembled command. -/
theorem login_prefix_when_credentials (d : Docker) (u p : String)
    (hu : d.username = some u) (hp : d.password = some p)
    (hu' : u ≠ "") (hp' : p ≠ "") :
    (∀ (docker_flags : List String) (image_name : String)
        (app_args : Option (List String)),
        d.run docker_flags image_name app_args true
          = Sum.inl (joinSpace ((["docker", "login", "-u", u, "-p", p]).map
                shlexQuote)
              ++ " && "
              ++ Docker.assembleRun docker_flags image_name app_args))
    ∧ (∀ (image_name : String) (docker_flags : List String)
        (project_path : String),
        d.build image_name docker_flags project_path true
          = Sum.inl (joinSpace ((["docker", "login", "-u", u, "-p", p]).map
                shlexQuote)
              ++ " && "
              ++ Docker.assembleBuild image_name docker_flags
                  project_path)) := by
  have hlogin : d.loginCommand
      = some (joinSpace ((["docker", "login", "-u", u, "-p", p]).map
          shlexQuote)) := by
    unfold Docker.loginCommand
    rw [hu, hp]
    simp only [if_pos (And.intro hu' hp')]
  constructor
  · intro fs img aas
    unfold Docker.run
    rw [hlogin]
    rfl
  · intro img fs path
    unfold Docker.build
    rw [hlogin]
    rfl

/-- Witness for C3 at concrete credentials. -/
theorem login_prefix_when_credentials_witness :
    (Docker.mk "c" (some "myuser") (some "mypassword")).run [] "img" none true
      = Sum.inl (joinSpace ((["docker", "login", "-u", "myuser", "-p",
            "mypassword"]).map shlexQuote)
          ++ " && " ++ Docker.assembleRun [] "img" none) :=
  (login_prefix_when_credentials
    (Docker.mk "c" (some "myuser") (some "mypassword")) "myuser" "mypassword"
    rfl rfl (by decide) (by decide)).1 [] "img" none

/-- C4: each map builder emits one two-token (flag, value) pair per map
entry, in the map's iteration order, so the flag list has length twice the
number of entries. -/
theorem map_builders_length_and_order :
    ∀ m : List (String × String),
      (DockerRunFlag.env m = m.flatMap (fun kv => ["-e", kv.1 ++ "=" ++ kv.2])
        ∧ (DockerRunFlag.env m).length = 2 * m.length)
      ∧ (DockerRunFlag.publish m
          = m.flatMap (fun kv => ["-p", kv.1 ++ ":" ++ kv.2])
        ∧ (DockerRunFlag.publish m).length = 2 * m.length)
      ∧ (DockerRunFlag.volume m
          = m.flatMap (fun kv => ["-v", kv.1 ++ ":" ++ kv.2])
        ∧ (DockerRunFlag.volume m).length = 2 * m.length)
      ∧ (DockerBuildFlag.build_arg m
          = m.flatMap (fun kv => ["--build-arg", kv.1 ++ "=" ++ kv.2])
        ∧ (DockerBuildFlag.build_arg m).length = 2 * m.length) := by
  intro m
  have henv : DockerRunFlag.env m
      = m.flatMap (fun kv => ["-e", kv.1 ++ "=" ++ kv.2]) := by
    rw [DockerRunFlag.env, foldl_append_eq_bind, List.nil_append]
  have hpub : DockerRunFlag.publish m
      = m.flatMap (fun kv => ["-p", kv.1 ++ ":" ++ kv.2]) := by
    rw [DockerRunFlag.publish, foldl_append_eq_bind, List.nil_append]
  have hvol : DockerRunFlag.volume m
      = m.flatMap (fun kv => ["-v", kv.1 ++ ":" ++ kv.2]) := by
    rw [DockerRunFlag.volume, foldl_append_eq_bind, List.nil_append]
  have harg : DockerBuildFlag.build_arg m
      = m.flatMap (fun kv => ["--build-arg", kv.1 ++ "=" ++ kv.2]) := by
    rw [DockerBuildFlag.build_arg, foldl_append_eq_bind, List.nil_append]
  refine ⟨⟨henv, ?_⟩, ⟨hpub, ?_⟩, ⟨hvol, ?_⟩, ⟨harg, ?_⟩⟩
  · rw [henv]
    exact length_bind_pairs (fun kv => ["-e", kv.1 ++ "=" ++ kv.2])
      (fun a => rfl) m
  · rw [hpub]
    exact length_bind_pairs (fun kv => ["-p", kv.1 ++ ":" ++ kv.2])
      (fun a => rfl) m
  · rw [hvol]
    exact length_bind_pairs (fun kv => ["-v", kv.1 ++ ":" ++ kv.2])
      (fun a => rfl) m
  · rw [harg]
    exact length_bind_pairs (fun kv => ["--build-arg", kv.1 ++ "=" ++ kv.2])
      (fun a => rfl) m

/-- C5: `Docker.build` uses the fixed layout
`docker build <flags> -t <image_name> <project_path>`, with `-t` and the
image name immediately before the project path; on the concrete inputs of
the repository's test it returns exactly
`docker build --build-arg arg1=value1 -t my_image .`. -/
theorem build_layout_and_example :
    (∀ (image_name : String) (docker_flags : List String)
        (project_path : String),
        lexWords (Docker.assembleBuild image_name docker_flags
            project_path).data
          = some ((["docker", "build"] ++ docker_flags).map String.data
              ++ ["-t".data, image_name.data, project_path.data]))
    ∧ (Docker.mk "c" none none).build "my_image"
          (DockerBuildFlag.build_arg [("arg1", "value1")]) "." true
        = Sum.inl "docker build --build-arg arg1=value1 -t my_image ." := by
  constructor
  · intro img fs path
    simpa [Docker.assembleBuild] using lexWords_joinSpace_quote "docker"
      ("build" :: (fs ++ ["-t", img, path]))
  · decide

/-- C6: `Docker.run` without credentials, with `temp_container() + name("x")`
flags, image `img`, no app args and `return_command = true` returns exactly
`docker run --rm --name x img`, with no login prefix. -/
theorem run_no_login_example :
    (Docker.mk "c" none none).run
        (DockerRunFlag.temp_container ++ DockerRunFlag.name "x") "img" none
        true
      = Sum.inl "docker run --rm --name x img" := by decide

/-- C7 (code behaviour at the failing input): calling `Git.clone` without a
flags argument leaves `flags = None`, and unpacking `*flags` raises
`TypeError` instead of treating it as an empty sequence. -/
theorem clone_default_flags_raises :
    Git.mk.clone "https://example/repo.git" "." none true
      = Except.error PyErr.typeError := rfl

/-- C8: `Git.clone` of `https://example/repo.git` with an explicitly empty
flag sequence, the default directory `.` and `return_command = true` returns
exactly `git clone https://example/repo.git .`. -/
theorem clone_empty_flags_example :
    Git.mk.clone "https://example/repo.git" "." (some []) true
      = Except.ok (Sum.inl "git clone https://example/repo.git .") := rfl

/-- C9: `Git.clone` with `return_command = false` never returns an execution
handle: with flags supplied the `_ssh` branch reads the never-assigned
`ssh_conn_id` attribute and raises `AttributeError`, and without flags it
raises `TypeError` first, so the execute branch always fails. -/
theorem clone_execute_never_returns_handle :
    (∀ (g : Git) (repository_url directory : String) (fs : List String),
        g.clone repository_url directory (some fs) false
          = Except.error PyErr.attributeError)
    ∧ (∀ (g : Git) (repository_url directory : String)
        (flags : Option (List String)),
        ∃ e : PyErr, g.clone repository_url directory flags false
          = Except.error e) := by
  constructor
  · intro g url dir fs
    rfl
  · intro g url dir flags
    cases flags with
    | none => exact ⟨PyErr.typeError, rfl⟩
    | some fs => exact ⟨PyErr.attributeError, rfl⟩

/-- C10: an empty-string username or password, or a missing one, behaves
exactly like absent credentials: `_login_command` returns nothing and
`Docker.run` / `Docker.build` with `return_command = true` return the bare
assembled command with no login prefix. -/
theorem empty_credentials_no_login (d : Docker)
    (h : d.username = none ∨ d.username = some "" ∨ d.password = none
      ∨ d.password = some "") :
    d.loginCommand = none
    ∧ (∀ (docker_flags : List String) (image_name : String)
        (app_args : Option (List String)),
        d.run docker_flags image_name app_args true
          = Sum.inl (Docker.assembleRun docker_flags image_name app_args))
    ∧ (∀ (image_name : String) (docker_flags : List String)
        (project_path : String),
        d.build image_name docker_flags project_path true
          = Sum.inl (Docker.assembleBuild image_name docker_flags
              project_path)) := by
  obtain ⟨cid, un, pw⟩ := d
  have hnone : Docker.loginCommand ⟨cid, un, pw⟩ = none := by
    unfold Docker.loginCommand
    cases un with
    | none => rfl
    | some u =>
      cases pw with
      | none => rfl
      | some p =>
        rcases h with h | h | h | h
        · exact absurd h (by simp)
        · have hu : u = "" := by
            simpa using h
          subst hu
          simp
        · exact absurd h (by simp)
        · have hp : p = "" := by
            simpa using h
          subst hp
          simp
  refine ⟨hnone, ?_, ?_⟩
  · intro fs img aas
    unfold Docker.run
    rw [hnone]
    rfl
  · intro img fs path
    unfold Docker.build
    rw [hnone]
    rfl

/-- Witness for C10 at a concrete empty-string username. -/
theorem empty_credentials_no_login_witness :
    (Docker.mk "c" (some "") (some "pw")).loginCommand = none
    ∧ (Docker.mk "c" (some "") (some "pw")).run [] "img" none true
        = Sum.inl (Docker.assembleRun [] "img" none) := by
  have h := empty_credentials_no_login (Docker.mk "c" (some "") (some "pw"))
    (Or.inr (Or.inl rfl))
  exact ⟨h.1, h.2.1 [] "img" none⟩
